import Mathlib

/-!
Shallow embedding, in Lean 4, of the concurrent multi-worker inference and
confidence-based refinement subsystem of the reel-locator repository
(`rl_agents/refinement_agent.py`, `rl_agents/parallel_vision.py`,
`observability/obs.py`, `mcp_server/mcp_server.py`), together with proofs of
the behavioural properties stated in its design specification.

Python dictionaries carrying location results are embedded as structures with
explicit optional fields (`.get(k, default)` becomes `Option.getD`); float
confidences are embedded as rationals; exceptions are embedded as `Except`.
-/

/-- One landmark entry of a location result:
`{"name": ..., "confidence": ..., "evidence": ...}`.
`confidence` is optional; readers use `lm.get("confidence", 0.0)`. -/
structure Landmark where
  name : String
  confidence : Option ℚ
  evidence : Option String
deriving DecidableEq, Repr

/-- A location-candidate dictionary as produced by `VisionAgent.analyze_frames`
or `GeoAgent.refine_location`: city/country/region strings, a landmark list
(`r.get("landmarks", [])` — an absent list is the empty list), and an optional
top-level confidence (`r.get("confidence", 0)`). -/
structure LocationCandidate where
  city : Option String
  country : Option String
  region : Option String
  landmarks : List Landmark
  confidence : Option ℚ
deriving DecidableEq, Repr

/-! ## RefinementLoop (`rl_agents/refinement_agent.py`) -/

/-- `RefinementLoop.__init__(threshold=0.70, max_iters=3)`.
`max_iters` is a Python `int`, so it may be negative; `range(max_iters)` is
then empty. -/
structure RefinementLoop where
  threshold : ℚ
  max_iters : ℤ
deriving DecidableEq, Repr

/-- The body of `RefinementLoop.refine`'s `for i in range(self.max_iters)`
loop, with the remaining number of loop passes as explicit fuel.
State carried across passes: `current` (last accepted candidate), `lastConf`
(`last_conf`), `iters` (`iters`, incremented at the top of each pass).

Each pass computes `refined := geo_agent.refine_location(current)` and
`new_conf := refined.get("confidence", 0)`, then
- returns `(refined, iters)` if `new_conf >= threshold`;
- returns `(refined, iters)` if `new_conf <= last_conf`;
- otherwise accepts: `current := refined; last_conf := new_conf` and loops.
When the fuel runs out, it returns `(current, iters)`. -/
def refineGo (threshold : ℚ) (geo : LocationCandidate → LocationCandidate) :
    LocationCandidate → ℚ → ℕ → ℕ → LocationCandidate × ℕ
  | current, _, iters, 0 => (current, iters)
  | current, lastConf, iters, fuel + 1 =>
    let refined := geo current
    let newConf := refined.confidence.getD 0
    if threshold ≤ newConf then (refined, iters + 1)
    else if newConf ≤ lastConf then (refined, iters + 1)
    else refineGo threshold geo refined newConf (iters + 1) fuel

/-- `RefinementLoop.refine(raw_vision, geo_agent)`: initialises
`current := raw_vision`, `last_conf := raw_vision.get("confidence", 0)`,
`iters := 0`, runs the loop for `range(max_iters)` passes (empty when
`max_iters <= 0`), and returns `(final_location_info, iterations_used)`. -/
def RefinementLoop.refine (self : RefinementLoop) (raw_vision : LocationCandidate)
    (geo : LocationCandidate → LocationCandidate) : LocationCandidate × ℕ :=
  refineGo self.threshold geo raw_vision (raw_vision.confidence.getD 0) 0 self.max_iters.toNat

/-- A placeholder landmark used to build concrete test candidates. -/
def dummyLm : Landmark := { name := "lm", confidence := none, evidence := none }

/-- A concrete test candidate identified by the number `k` of (placeholder)
landmarks it carries, with the given top-level confidence. -/
def tagCand (k : ℕ) (conf : Option ℚ) : LocationCandidate :=
  { city := none, country := none, region := none,
    landmarks := List.replicate k dummyLm, confidence := conf }

/-- Concrete normalizer realising the confidence sequence `0.3, 0.5, 0.6`
of the spec's exhaustion test case: it maps the candidate tagged `k` to the
candidate tagged `k + 1` with the next confidence in the sequence. -/
def chainGeo356 : LocationCandidate → LocationCandidate := fun c =>
  if c.landmarks.length = 0 then tagCand 1 (some 0.3)
  else if c.landmarks.length = 1 then tagCand 2 (some 0.5)
  else tagCand 3 (some 0.6)

/-- The default-configured loop `RefinementLoop(threshold=0.70, max_iters=3)`
constructed by `analyze_reel` in `mcp_server/mcp_server.py`. -/
def defaultLoop : RefinementLoop := { threshold := 0.7, max_iters := 3 }

/-- Concrete normalizer realising the confidence sequence `0.5, 0.8` of the
spec's threshold-met test case. -/
def chainGeo58 : LocationCandidate → LocationCandidate := fun c =>
  if c.landmarks.length = 0 then tagCand 1 (some 0.5) else tagCand 2 (some 0.8)

/-- Concrete normalizer realising the confidence sequence `0.5, 0.4` of the
spec's non-improving test case. -/
def chainGeo54 : LocationCandidate → LocationCandidate := fun c =>
  if c.landmarks.length = 0 then tagCand 1 (some 0.5) else tagCand 2 (some 0.4)

/-! ## ParallelVisionEngine (`rl_agents/parallel_vision.py`) -/

/-- Per-candidate score of the aggregation step of
`ParallelVisionEngine.analyze`:
`confs = [lm.get("confidence", 0.0) for lm in r.get("landmarks", [])]` and
`avg_conf = sum(confs) / len(confs) if confs else 0`. -/
def avgConfidence (r : LocationCandidate) : ℚ :=
  let confs := r.landmarks.map (fun lm => lm.confidence.getD 0)
  if confs = [] then 0 else confs.sum / confs.length

/-- One pass of the aggregation loop: starting from `(best, best_score)`,
`if avg_conf > best_score: best = r; best_score = avg_conf`. -/
def selectStep (best : Option LocationCandidate × ℚ) (r : LocationCandidate) :
    Option LocationCandidate × ℚ :=
  if best.2 < avgConfidence r then (some r, avgConfidence r) else best

/-- The aggregation loop of `ParallelVisionEngine.analyze` over all candidate
results, in dispatch order, starting from `best = None`, `best_score = -1`. -/
def selectBest (results : List LocationCandidate) : Option LocationCandidate × ℚ :=
  results.foldl selectStep (none, -1)

/-- The winning candidate annotated with the `avg_confidence` field
(`best["avg_confidence"] = best_score`). -/
structure AggregatedResult where
  candidate : LocationCandidate
  avg_confidence : ℚ
deriving DecidableEq, Repr

/-- The aggregation step of `ParallelVisionEngine.analyze` (lines 70–95):
select the best candidate; `raise ValueError(...)` if `best is None`,
otherwise annotate the winner with the winning score and return it. -/
def aggregate (results : List LocationCandidate) : Except String AggregatedResult :=
  match selectBest results with
  | (none, _) => .error "ParallelVisionEngine: No valid results returned"
  | (some best, score) => .ok { candidate := best, avg_confidence := score }

/-- Join semantics of `asyncio.gather(*tasks, return_exceptions=False)` as
used by `analyze`: if every task succeeds, the value is the list of all task
results in dispatch order; if any task fails, the whole gather fails with a
failing task's exception and no partial result is surfaced. -/
def gatherStrict : List (Except String LocationCandidate) →
    Except String (List LocationCandidate)
  | [] => .ok []
  | t :: ts =>
    match t with
    | .error e => .error e
    | .ok r =>
      match gatherStrict ts with
      | .error e => .error e
      | .ok rs => .ok (r :: rs)

/-- `ParallelVisionEngine(num_agents)`: holds `num_agents` independent vision
agents; each agent is the collaborator function
`agent.analyze_frames : frame paths → location candidate (or failure)`. -/
structure ParallelVisionEngine where
  agents : List (List String → Except String LocationCandidate)

/-- `ParallelVisionEngine.analyze(frame_paths)`: dispatches all agents on the
identical frame list, joins them with `asyncio.gather`, then runs the
aggregation loop over the gathered results. -/
def ParallelVisionEngine.analyze (self : ParallelVisionEngine)
    (frame_paths : List String) : Except String AggregatedResult :=
  match gatherStrict (self.agents.map (fun a => a frame_paths)) with
  | .error e => .error e
  | .ok results => aggregate results

/-- Concrete candidate with landmark confidences `0.4` and `0.6`
(mean `0.5`). -/
def candA : LocationCandidate :=
  { city := some "A", country := none, region := none,
    landmarks := [{ name := "a1", confidence := some 0.4, evidence := none },
                  { name := "a2", confidence := some 0.6, evidence := none }],
    confidence := none }

/-- Concrete candidate with the single landmark confidence `0.5`
(mean `0.5`, an exact tie with `candA`). -/
def candB : LocationCandidate :=
  { city := some "B", country := none, region := none,
    landmarks := [{ name := "b1", confidence := some 0.5, evidence := none }],
    confidence := none }

/-- Concrete one-agent engine whose single worker call fails. -/
def failEngine : ParallelVisionEngine :=
  { agents := [fun _ => .error "provider error"] }

/-! ## MCP orchestration boundary (`mcp_server/mcp_server.py`) -/

/-- The collaborators used by the body of the `analyze_reel` tool:
`extract_key_frames(...)`, `vision_engine.analyze(...)` and
`refiner.refine(raw_vision, geo_agent)` (the latter failing when a
`geo_agent.refine_location` call raises, since the loop has no retry).
Each is a fallible call whose exception is embedded as `Except.error`. -/
structure AnalyzeDeps where
  extract_frames : Except String (List String)
  vision : List String → Except String LocationCandidate
  geo_refine : LocationCandidate → Except String (LocationCandidate × ℕ)

/-- An error dictionary returned by an MCP tool instead of a raised
exception. Each optional field models the presence of the corresponding key
in the returned Python dict (`stage`, `video_path`, `city`). -/
structure ErrorPayload where
  error : String
  stage : Option String
  video_path : Option String
  city : Option String
deriving DecidableEq, Repr

/-- Success payload of `analyze_reel`: the refined location dict with the
`sampled_frames` key added. -/
structure AnalyzeResult where
  info : LocationCandidate
  sampled_frames : List String
deriving DecidableEq, Repr

/-- Success payload of `fetch_city_places`: `{city, place_type, results}`
(the place dictionaries abstracted to opaque entries). -/
structure PlacesResult where
  city : String
  results : List String
deriving DecidableEq, Repr

/-- Success payload of `plan_itinerary_from_reel`. -/
structure PlanResult where
  city : Option String
  country : Option String
  region : Option String
  landmarks : List Landmark
  places : List String
  itinerary_markdown : String
deriving DecidableEq, Repr

/-- The `try`-block body of `analyze_reel`: extract frames, run the parallel
vision engine on them, refine with the refinement loop; the first failure
aborts the body with that exception. -/
def analyzeBody (d : AnalyzeDeps) : Except String (LocationCandidate × List String) := do
  let frames ← d.extract_frames
  let raw ← d.vision frames
  let (loc, _iters) ← d.geo_refine raw
  pure (loc, frames)

/-- The `analyze_reel` MCP tool: on success, the location info with
`sampled_frames`; on any exception from the body, the caught-and-converted
dict `{"error": str(e), "video_path": video_path}` (no `stage` key). -/
def analyze_reel (d : AnalyzeDeps) (video_path : String) :
    AnalyzeResult ⊕ ErrorPayload :=
  match analyzeBody d with
  | .ok (loc, frames) => .inl { info := loc, sampled_frames := frames }
  | .error e =>
    .inr { error := e, stage := none, video_path := some video_path, city := none }

/-- The `fetch_city_places` MCP tool: on success, `{city, ..., results}`;
on any exception from the Places search, the caught-and-converted dict
`{"error": str(e), "city": city}` (no `stage` key). -/
def fetch_city_places (search : String → Except String (List String))
    (city : String) : PlacesResult ⊕ ErrorPayload :=
  match search city with
  | .ok places => .inl { city := city, results := places }
  | .error e =>
    .inr { error := e, stage := none, video_path := none, city := some city }

/-- `display_city = f"{city}, {country}" if country else city`, with
`city = location_info.get("city") or ""` and likewise for `country`. -/
def displayCity (info : LocationCandidate) : String :=
  let city := info.city.getD ""
  let country := info.country.getD ""
  if country = "" then city else city ++ ", " ++ country

/-- The argument passed to `fetch_city_places` by the planner:
`display_city or city or " "` (Python `or` picks the first non-empty
string). -/
def planFetchArg (info : LocationCandidate) : String :=
  if displayCity info = "" then (if info.city.getD "" = "" then " " else info.city.getD "")
  else displayCity info

/-- Collaborators of `plan_itinerary_from_reel`: the `analyze_reel`
dependencies, the requested video path, the Places search, the itinerary
composer `itinerary_agent.build_itinerary` (fallible), and the rendered
observability dashboard appended to the markdown. -/
structure PlanDeps where
  analyze : AnalyzeDeps
  video_path : String
  search : String → Except String (List String)
  build_itinerary : LocationCandidate → List String → Except String String
  dashboard : String

/-- The `plan_itinerary_from_reel` MCP tool: step 1 calls `analyze_reel`
and converts its error dict to `{"stage": "analyze_reel", "error": ...}`;
step 2 calls `fetch_city_places` and converts its error dict to
`{"stage": "fetch_city_places", "error": ...}`; step 3 builds the itinerary,
any exception being caught by the tool's own handler as
`{"stage": "plan_itinerary_from_reel", "error": str(e)}`. -/
def plan_itinerary_from_reel (d : PlanDeps) : PlanResult ⊕ ErrorPayload :=
  match analyze_reel d.analyze d.video_path with
  | .inr p =>
    .inr { error := p.error, stage := some "analyze_reel",
           video_path := none, city := none }
  | .inl ar =>
    match fetch_city_places d.search (planFetchArg ar.info) with
    | .inr p =>
      .inr { error := p.error, stage := some "fetch_city_places",
             video_path := none, city := none }
    | .inl pr =>
      match d.build_itinerary ar.info pr.results with
      | .error e =>
        .inr { error := e, stage := some "plan_itinerary_from_reel",
               video_path := none, city := none }
      | .ok md =>
        .inl { city := ar.info.city, country := ar.info.country,
               region := ar.info.region, landmarks := ar.info.landmarks,
               places := pr.results,
               itinerary_markdown := md ++ "\n\n" ++ d.dashboard }

/-- Concrete `analyze_reel` dependencies whose frame extraction fails. -/
def failingExtractDeps : AnalyzeDeps :=
  { extract_frames := .error "unreadable video",
    vision := fun _ => .error "unused",
    geo_refine := fun _ => .error "unused" }

/-- Concrete planner dependencies on top of `failingExtractDeps`. -/
def failingPlanDeps : PlanDeps :=
  { analyze := failingExtractDeps, video_path := "reel.mp4",
    search := fun _ => .error "unused",
    build_itinerary := fun _ _ => .error "unused", dashboard := "" }

/-! ## MetricsStore (`observability/obs.py`): snapshot copying

The module-level store `_METRICS` holds three Python dicts. To express the
aliasing content of `get_metrics` (each returned map is a fresh `dict(...)`
copy, not a reference to a live dict), dicts are modelled as heap cells:
a heap maps references to string-keyed metric maps, the live store owns the
fixed references 0, 1, 2, and `dict(...)` allocates a fresh cell holding a
copy of the contents. Every operation of `obs.py` runs under the single
`_METRICS_LOCK`, so each is one atomic heap transformation. -/

/-- A metric map (a Python dict from string keys to numbers). -/
def MetricMap : Type := List (String × ℚ)

/-- `m.get(key, default)` for a metric map. -/
def mapGet (m : MetricMap) (k : String) (d : ℚ) : ℚ :=
  match m.find? (fun p => p.1 == k) with
  | some p => p.2
  | none => d

/-- `m[key] = v` for a metric map. -/
def mapSet (m : MetricMap) (k : String) (v : ℚ) : MetricMap :=
  (k, v) :: List.filter (fun p => p.1 != k) m

/-- Association lookup in a list of heap cells; a dangling reference reads
as an empty map (never exercised from well-formed heaps). -/
def lookupCells : List (ℕ × MetricMap) → ℕ → MetricMap
  | [], _ => []
  | c :: cs, r => if c.1 = r then c.2 else lookupCells cs r

/-- A heap of dict cells: an allocation counter and the cells, most recent
write first. -/
structure Heap where
  next : ℕ
  cells : List (ℕ × MetricMap)

/-- Read the dict referenced by `r`. -/
def Heap.lookup (h : Heap) (r : ℕ) : MetricMap := lookupCells h.cells r

/-- Overwrite the dict referenced by `r` (a shadowing write). -/
def Heap.write (h : Heap) (r : ℕ) (m : MetricMap) : Heap :=
  { next := h.next, cells := (r, m) :: h.cells }

/-- Allocate a fresh dict cell holding `m` (`dict(...)`). -/
def Heap.alloc (h : Heap) (m : MetricMap) : Heap × ℕ :=
  ({ next := h.next + 1, cells := (h.next, m) :: h.cells }, h.next)

/-- Reference of the live `_METRICS["counters"]` dict. -/
def countersRef : ℕ := 0

/-- Reference of the live `_METRICS["latencies"]` dict. -/
def latenciesRef : ℕ := 1

/-- Reference of the live `_METRICS["timings"]` dict. -/
def timingsRef : ℕ := 2

/-- The heap at module load: the three live dicts, all empty. -/
def initHeap : Heap :=
  { next := 3, cells := [(countersRef, []), (latenciesRef, []), (timingsRef, [])] }

/-- Well-formedness: the live references exist below the allocation counter
and every cell reference is below it. -/
def Heap.wf (h : Heap) : Prop :=
  3 ≤ h.next ∧ ∀ c ∈ h.cells, c.1 < h.next

/-- `inc(key, amount)`:
`_METRICS["counters"][key] = _METRICS["counters"].get(key, 0) + amount`,
atomically under `_METRICS_LOCK`. -/
def inc (h : Heap) (key : String) (amount : ℚ) : Heap :=
  h.write countersRef
    (mapSet (h.lookup countersRef) key (mapGet (h.lookup countersRef) key 0 + amount))

/-- `record_latency(key, value)`: `_METRICS["latencies"][key] = float(value)`
(an overwrite), atomically under `_METRICS_LOCK`. -/
def record_latency (h : Heap) (key : String) (value : ℚ) : Heap :=
  h.write latenciesRef (mapSet (h.lookup latenciesRef) key value)

/-- The `__exit__` write of the `timer` context manager:
`_METRICS["timings"][self.key] = duration`, atomically under
`_METRICS_LOCK`. -/
def timerExit (h : Heap) (key : String) (duration : ℚ) : Heap :=
  h.write timingsRef (mapSet (h.lookup timingsRef) key duration)

/-- The triple of dict references returned by `get_metrics`. -/
structure MetricsSnapshot where
  counters : ℕ
  latencies : ℕ
  timings : ℕ

/-- `get_metrics()`: under the lock, return
`{"counters": dict(...), "latencies": dict(...), "timings": dict(...)}` —
three freshly allocated cells holding copies of the live dicts' contents. -/
def get_metrics (h : Heap) : Heap × MetricsSnapshot :=
  let ac := h.alloc (h.lookup countersRef)
  let al := ac.1.alloc (h.lookup latenciesRef)
  let at_ := al.1.alloc (h.lookup timingsRef)
  (at_.1, { counters := ac.2, latencies := al.2, timings := at_.2 })

/-- The three maps a snapshot denotes in a given heap. -/
def readSnapshot (h : Heap) (s : MetricsSnapshot) :
    MetricMap × MetricMap × MetricMap :=
  (h.lookup s.counters, h.lookup s.latencies, h.lookup s.timings)

/-- The three live maps of the store. -/
def liveView (h : Heap) : MetricMap × MetricMap × MetricMap :=
  (h.lookup countersRef, h.lookup latenciesRef, h.lookup timingsRef)

/-- One write operation against the live store. -/
inductive WriteOp where
  | incOp (key : String) (amount : ℚ)
  | recordOp (key : String) (value : ℚ)
  | timerOp (key : String) (duration : ℚ)

/-- Apply one write operation. -/
def applyOp (h : Heap) : WriteOp → Heap
  | .incOp k a => inc h k a
  | .recordOp k v => record_latency h k v
  | .timerOp k d => timerExit h k d

/-- Apply a sequence of write operations, oldest first. -/
def applyOps (h : Heap) (ops : List WriteOp) : Heap := ops.foldl applyOp h

/-- The heap produced by snapshotting the initial store. -/
def snapHeapInit : Heap :=
  { next := 6,
    cells := [(5, []), (4, []), (3, []),
              (countersRef, []), (latenciesRef, []), (timingsRef, [])] }

/-- The snapshot of the initial store. -/
def snapInit : MetricsSnapshot := { counters := 3, latencies := 4, timings := 5 }

/-! ## MetricsStore (`observability/obs.py`): `inc` under concurrency

Two concurrent callers of `inc("x", 3)` are modelled as two threads, each
executing the body of `inc` decomposed into its atomic machine actions:
acquire `_METRICS_LOCK`; read `tmp = _METRICS["counters"].get("x", 0)`;
write `_METRICS["counters"]["x"] = tmp + 3`; release the lock. A schedule
is an arbitrary interleaving of the two threads; a thread scheduled while
blocked on the lock (or finished) makes no progress. Counters hold Python
ints, embedded as `ℤ`; an absent key is `none`. -/

/-- Joint state of the two `inc("x", 3)` callers and the counters entry
`"x"`. Program counters: 0 = before acquire, 1 = holding the lock before
the read, 2 = before the write, 3 = before the release, 4 = done. -/
structure IncState where
  lock : Option Bool
  pcA : ℕ
  pcB : ℕ
  tmpA : ℤ
  tmpB : ℤ
  cnt : Option ℤ
deriving DecidableEq, Repr

/-- Initial state: lock free, both callers before their acquire, key `"x"`
absent from the counters dict. -/
def incInit : IncState :=
  { lock := none, pcA := 0, pcB := 0, tmpA := 0, tmpB := 0, cnt := none }

/-- One atomic action of the first caller, when enabled. -/
def stepA (s : IncState) : Option IncState :=
  if s.pcA = 0 then
    if s.lock = none then some { s with lock := some false, pcA := 1 } else none
  else if s.pcA = 1 then
    if s.lock = some false then some { s with tmpA := s.cnt.getD 0, pcA := 2 } else none
  else if s.pcA = 2 then
    if s.lock = some false then some { s with cnt := some (s.tmpA + 3), pcA := 3 } else none
  else if s.pcA = 3 then
    if s.lock = some false then some { s with lock := none, pcA := 4 } else none
  else none

/-- One atomic action of the second caller, when enabled. -/
def stepB (s : IncState) : Option IncState :=
  if s.pcB = 0 then
    if s.lock = none then some { s with lock := some true, pcB := 1 } else none
  else if s.pcB = 1 then
    if s.lock = some true then some { s with tmpB := s.cnt.getD 0, pcB := 2 } else none
  else if s.pcB = 2 then
    if s.lock = some true then some { s with cnt := some (s.tmpB + 3), pcB := 3 } else none
  else if s.pcB = 3 then
    if s.lock = some true then some { s with lock := none, pcB := 4 } else none
  else none

/-- Schedule one thread: it takes its next atomic action if enabled, and
stays put when blocked on the lock or finished. -/
def schedStep (s : IncState) (t : Bool) : IncState :=
  ((if t then stepB s else stepA s)).getD s

/-- Run an arbitrary interleaving of the two callers. -/
def runSched (s : IncState) (sched : List Bool) : IncState :=
  sched.foldl schedStep s

/-- Inductive invariant of the two-caller system: program counters are in
range; the lock holder (and only it) sits inside its critical section
(pc 1–3) while the other thread is outside (pc 0 or 4); the counters entry
reflects exactly the writes that have happened (3 per completed write);
and a thread poised to write has read the then-current value. -/
def IncInv (s : IncState) : Prop :=
  s.pcA ≤ 4 ∧ s.pcB ≤ 4 ∧
  (s.lock = none → (s.pcA = 0 ∨ s.pcA = 4) ∧ (s.pcB = 0 ∨ s.pcB = 4)) ∧
  (s.lock = some false → (1 ≤ s.pcA ∧ s.pcA ≤ 3) ∧ (s.pcB = 0 ∨ s.pcB = 4)) ∧
  (s.lock = some true → (1 ≤ s.pcB ∧ s.pcB ≤ 3) ∧ (s.pcA = 0 ∨ s.pcA = 4)) ∧
  s.cnt = (if 3 ≤ s.pcA then (if 3 ≤ s.pcB then some 6 else some 3)
           else (if 3 ≤ s.pcB then some 3 else none)) ∧
  (s.pcA = 2 → s.tmpA = (if 3 ≤ s.pcB then 3 else 0)) ∧
  (s.pcB = 2 → s.tmpB = (if 3 ≤ s.pcA then 3 else 0))

/-- A complete schedule: the first caller runs to completion, then the
second. -/
def demoSched : List Bool := [false, false, false, false, true, true, true, true]

/-! ## Properties -/

/-- Bounds on the iteration counter returned by the refinement loop body:
starting from counter `iters` with `fuel` remaining passes, the returned
counter lies in `[iters, iters + fuel]`, and is at least `iters + 1` whenever
at least one pass runs. -/
theorem refineGo_iters_bound (thr : ℚ) (geo : LocationCandidate → LocationCandidate) :
    ∀ (fuel : ℕ) (current : LocationCandidate) (lastConf : ℚ) (iters : ℕ),
      iters ≤ (refineGo thr geo current lastConf iters fuel).2 ∧
      (refineGo thr geo current lastConf iters fuel).2 ≤ iters + fuel ∧
      (1 ≤ fuel → iters + 1 ≤ (refineGo thr geo current lastConf iters fuel).2) := by
  intro fuel
  induction fuel with
  | zero => intro current lastConf iters; simp [refineGo]
  | succ f ih =>
    intro current lastConf iters
    simp only [refineGo]
    by_cases h1 : thr ≤ (geo current).confidence.getD 0
    · simp [h1]
    · simp only [if_neg h1]
      by_cases h2 : (geo current).confidence.getD 0 ≤ lastConf
      · simp [h2]
      · simp only [if_neg h2]
        obtain ⟨ha, hb, hc⟩ := ih (geo current) ((geo current).confidence.getD 0) (iters + 1)
        refine ⟨by omega, by omega, fun _ => by omega⟩

/-- C1, stated behaviour refuted: with `threshold=0.70`, `max_iters=3` and a
normalizer yielding confidences `[0.3, 0.5, 0.6]`, the candidate returned by
`RefinementLoop.refine` is not iteration 2's value (the `0.5`-confidence
candidate), contrary to the spec's test-case sentence. -/
theorem refine_exhausted_not_iteration2 :
    (defaultLoop.refine (tagCand 0 none) chainGeo356).1 ≠ tagCand 2 (some 0.5) := by
  have h : defaultLoop.refine (tagCand 0 none) chainGeo356 = (tagCand 3 (some 0.6), 3) := by
    norm_num [RefinementLoop.refine, defaultLoop, refineGo, chainGeo356, tagCand]
  rw [h]
  simp [tagCand, List.replicate]

/-- C1, amended: with `threshold=0.70`, `max_iters=3` and a normalizer
yielding confidences `[0.3, 0.5, 0.6]` (every iteration sub-threshold but
improving), `RefinementLoop.refine` exhausts the loop and returns
`iterationsUsed = 3` together with the candidate from the last accepted
iteration — which is iteration **3**'s value, since iteration 3's candidate
was accepted by step (d) just before the loop exhausted. -/
theorem refine_exhausted_returns_last_accepted :
    defaultLoop.refine (tagCand 0 none) chainGeo356 = (tagCand 3 (some 0.6), 3) := by
  norm_num [RefinementLoop.refine, defaultLoop, refineGo, chainGeo356, tagCand]

/-- C3: whenever a pass of the refinement loop computes a refined candidate
whose confidence (defaulting to 0 when absent) meets the threshold or fails
to improve on the last accepted confidence (including equality), the loop
returns immediately with that just-computed candidate and the incremented
iteration counter; in particular, with `threshold=0.70` and confidence
sequence `[0.5, 0.8]` the loop returns the iteration-2 candidate with
`iterationsUsed=2`, and likewise with sequence `[0.5, 0.4]` (the
rejected-for-improvement candidate). -/
theorem refine_early_stop_returns_refined :
    (∀ (thr : ℚ) (geo : LocationCandidate → LocationCandidate)
        (current : LocationCandidate) (lastConf : ℚ) (iters fuel : ℕ),
        1 ≤ fuel →
        (thr ≤ (geo current).confidence.getD 0 ∨
          (geo current).confidence.getD 0 ≤ lastConf) →
        refineGo thr geo current lastConf iters fuel = (geo current, iters + 1)) ∧
    defaultLoop.refine (tagCand 0 none) chainGeo58 = (tagCand 2 (some 0.8), 2) ∧
    defaultLoop.refine (tagCand 0 none) chainGeo54 = (tagCand 2 (some 0.4), 2) := by
  refine ⟨?_, ?_, ?_⟩
  · intro thr geo current lastConf iters fuel hfuel hstop
    obtain ⟨f, rfl⟩ : ∃ f, fuel = f + 1 := ⟨fuel - 1, by omega⟩
    simp only [refineGo]
    by_cases h1 : thr ≤ (geo current).confidence.getD 0
    · simp [h1]
    · rcases hstop with h | h2
      · exact absurd h h1
      · simp [h1, h2]
  · norm_num [RefinementLoop.refine, defaultLoop, refineGo, chainGeo58, tagCand]
  · norm_num [RefinementLoop.refine, defaultLoop, refineGo, chainGeo54, tagCand]

/-- Witness for C3: the early-stop rule applied at a concrete loop state, in
the middle of the `[0.5, 0.8]` run (threshold met at the second pass). -/
theorem refine_early_stop_returns_refined_witness :
    refineGo 0.7 chainGeo58 (tagCand 1 (some 0.5)) 0.5 1 2
      = (chainGeo58 (tagCand 1 (some 0.5)), 1 + 1) :=
  refine_early_stop_returns_refined.1 0.7 chainGeo58 (tagCand 1 (some 0.5)) 0.5 1 2
    (by norm_num)
    (Or.inl (by norm_num [chainGeo58, tagCand]))

/-- C7: whenever `max_iters ≥ 1`, the iteration count returned by
`RefinementLoop.refine` lies in the closed interval `[1, max_iters]`. -/
theorem refine_iterations_in_range (self : RefinementLoop)
    (raw : LocationCandidate) (geo : LocationCandidate → LocationCandidate)
    (h : 1 ≤ self.max_iters) :
    1 ≤ (self.refine raw geo).2 ∧ ((self.refine raw geo).2 : ℤ) ≤ self.max_iters := by
  obtain ⟨_, hb, hc⟩ := refineGo_iters_bound self.threshold geo self.max_iters.toNat
    raw (raw.confidence.getD 0) 0
  unfold RefinementLoop.refine
  constructor
  · exact hc (by omega)
  · omega

/-- Witness for C7 at the default configuration and the `[0.3, 0.5, 0.6]`
normalizer. -/
theorem refine_iterations_in_range_witness :
    1 ≤ (defaultLoop.refine (tagCand 0 none) chainGeo356).2 ∧
    ((defaultLoop.refine (tagCand 0 none) chainGeo356).2 : ℤ) ≤ defaultLoop.max_iters :=
  refine_iterations_in_range defaultLoop (tagCand 0 none) chainGeo356 (by norm_num [defaultLoop])

/-- C10: with a non-positive `max_iters` the loop body never runs
(`range(max_iters)` is empty), so `refine` returns the initial candidate
unmodified with `iterationsUsed = 0`, for every normalizer — in particular
the result does not depend on the normalizer, which is never consulted. -/
theorem refine_nonpositive_max_iters (self : RefinementLoop)
    (raw : LocationCandidate) (geo : LocationCandidate → LocationCandidate)
    (h : self.max_iters ≤ 0) :
    self.refine raw geo = (raw, 0) := by
  unfold RefinementLoop.refine
  have ht : self.max_iters.toNat = 0 := by omega
  rw [ht]
  rfl

/-- Witness for C10 at `max_iters = -1`. -/
theorem refine_nonpositive_max_iters_witness :
    RefinementLoop.refine { threshold := 0.7, max_iters := -1 } (tagCand 0 none) chainGeo356
      = (tagCand 0 none, 0) :=
  refine_nonpositive_max_iters { threshold := 0.7, max_iters := -1 } (tagCand 0 none)
    chainGeo356 (by norm_num)

/-- The aggregation loop leaves its accumulator untouched when no remaining
candidate strictly beats the current best score. -/
theorem selectFold_const (l : List LocationCandidate)
    (b : Option LocationCandidate) (s : ℚ) (h : ∀ r ∈ l, avgConfidence r ≤ s) :
    l.foldl selectStep (b, s) = (b, s) := by
  induction l with
  | nil => rfl
  | cons r t ih =>
    have hr : avgConfidence r ≤ s := h r (List.mem_cons_self r t)
    have hstep : selectStep (b, s) r = (b, s) := by
      simp [selectStep, not_lt.mpr hr]
    rw [List.foldl_cons, hstep]
    exact ih fun x hx => h x (List.mem_cons_of_mem r hx)

/-- The aggregation loop computes the leftmost maximiser of the average
landmark confidence among all candidates that strictly beat the initial
score. -/
theorem selectFold_argmax (l : List LocationCandidate) :
    ∀ (b : Option LocationCandidate) (s : ℚ), (∃ r ∈ l, s < avgConfidence r) →
    ∃ (i : ℕ) (hi : i < l.length),
      s < avgConfidence l[i] ∧
      l.foldl selectStep (b, s) = (some l[i], avgConfidence l[i]) ∧
      (∀ (j : ℕ) (hj : j < l.length), avgConfidence l[j] ≤ avgConfidence l[i]) ∧
      (∀ (j : ℕ) (hj : j < l.length), j < i → avgConfidence l[j] < avgConfidence l[i]) := by
  induction l with
  | nil => intro b s h; obtain ⟨r, hr, -⟩ := h; exact absurd hr (List.not_mem_nil r)
  | cons r t ih =>
    intro b s h
    by_cases hr : s < avgConfidence r
    · have hstep : selectStep (b, s) r = (some r, avgConfidence r) := by
        simp [selectStep, hr]
      by_cases hall : ∀ x ∈ t, avgConfidence x ≤ avgConfidence r
      · refine ⟨0, by simp, by simpa using hr, ?_, ?_, ?_⟩
        · rw [List.foldl_cons, hstep, selectFold_const t (some r) (avgConfidence r) hall]
          simp
        · intro j hj
          match j with
          | 0 => simp
          | j + 1 =>
            simp only [List.getElem_cons_succ, List.getElem_cons_zero]
            exact hall _ (t.getElem_mem _)
        · intro j hj hj0; omega
      · push_neg at hall
        obtain ⟨x, hx, hxr⟩ := hall
        obtain ⟨i, hi, h1, h2, h3, h4⟩ := ih (some r) (avgConfidence r) ⟨x, hx, hxr⟩
        refine ⟨i + 1, by simpa using Nat.succ_lt_succ hi, ?_, ?_, ?_, ?_⟩
        · simpa using lt_trans hr h1
        · rw [List.foldl_cons, hstep]
          simpa using h2
        · intro j hj
          match j with
          | 0 => simpa using le_of_lt h1
          | j + 1 => simpa using h3 j (by simpa using hj)
        · intro j hj hji
          match j with
          | 0 => simpa using h1
          | j + 1 => simpa using h4 j (by simpa using hj) (by omega)
    · have hstep : selectStep (b, s) r = (b, s) := by
        simp [selectStep, hr]
      obtain ⟨x, hx, hsx⟩ := h
      have hxt : x ∈ t := by
        rcases List.mem_cons.mp hx with rfl | hxt
        · exact absurd hsx hr
        · exact hxt
      obtain ⟨i, hi, h1, h2, h3, h4⟩ := ih b s ⟨x, hxt, hsx⟩
      have hrle : avgConfidence r ≤ s := not_lt.mp hr
      refine ⟨i + 1, by simpa using Nat.succ_lt_succ hi, ?_, ?_, ?_, ?_⟩
      · simpa using h1
      · rw [List.foldl_cons, hstep]
        simpa using h2
      · intro j hj
        match j with
        | 0 => simpa using le_of_lt (lt_of_le_of_lt hrle h1)
        | j + 1 => simpa using h3 j (by simpa using hj)
      · intro j hj hji
        match j with
        | 0 => simpa using lt_of_le_of_lt hrle h1
        | j + 1 => simpa using h4 j (by simpa using hj) (by omega)

/-- Candidates whose landmark confidences are all non-negative have a
non-negative average confidence. -/
theorem avgConfidence_nonneg (c : LocationCandidate)
    (h : ∀ lm ∈ c.landmarks, 0 ≤ lm.confidence.getD 0) : 0 ≤ avgConfidence c := by
  unfold avgConfidence
  by_cases hc : c.landmarks.map (fun lm => lm.confidence.getD 0) = []
  · simp [hc]
  · simp only [hc, if_false]
    apply div_nonneg
    · apply List.sum_nonneg
      intro x hx
      obtain ⟨lm, hlm, rfl⟩ := List.mem_map.mp hx
      exact h lm hlm
    · positivity

/-- Gathering a list of uniformly successful worker results succeeds with all
results in dispatch order. -/
theorem gatherStrict_ok_of_all_ok (rs : List LocationCandidate) :
    gatherStrict (rs.map Except.ok) = .ok rs := by
  induction rs with
  | nil => rfl
  | cons r t ih => simp [gatherStrict, ih]

/-- If any element of the gathered list is a failure, the gather fails with
one of the failing elements' errors. -/
theorem gatherStrict_error_of_mem_error (ts : List (Except String LocationCandidate))
    (h : ∃ t ∈ ts, ∃ e, t = .error e) :
    ∃ e, Except.error e ∈ ts ∧ gatherStrict ts = .error e := by
  induction ts with
  | nil =>
    obtain ⟨t, ht, -⟩ := h
    exact absurd ht (List.not_mem_nil t)
  | cons t ts ih =>
    match t with
    | .error e => exact ⟨e, List.mem_cons_self _ _, rfl⟩
    | .ok r =>
      have hts : ∃ u ∈ ts, ∃ e, u = .error e := by
        obtain ⟨u, hu, e, rfl⟩ := h
        rcases List.mem_cons.mp hu with huh | hut
        · exact absurd huh (by simp)
        · exact ⟨_, hut, e, rfl⟩
      obtain ⟨e, hmem, hg⟩ := ih hts
      refine ⟨e, List.mem_cons_of_mem _ hmem, ?_⟩
      simp [gatherStrict, hg]

/-- C2: for every non-empty candidate list whose landmark confidences are
non-negative (the data model's `[0,1]` range), aggregation scores each
candidate by the arithmetic mean of its landmark confidences (an empty
landmark list scoring 0), picks the candidate with the strictly highest
mean — exact ties resolving to the earliest-dispatched candidate — and
returns it annotated with `avg_confidence` equal to the winning mean. -/
theorem aggregate_picks_strictly_highest_mean (results : List LocationCandidate)
    (hne : results ≠ [])
    (hnn : ∀ c ∈ results, ∀ lm ∈ c.landmarks, 0 ≤ lm.confidence.getD 0) :
    (∀ c : LocationCandidate, c.landmarks = [] → avgConfidence c = 0) ∧
    ∃ (i : ℕ) (hi : i < results.length),
      aggregate results =
        .ok { candidate := results[i], avg_confidence := avgConfidence results[i] } ∧
      (∀ (j : ℕ) (hj : j < results.length),
        avgConfidence results[j] ≤ avgConfidence results[i]) ∧
      (∀ (j : ℕ) (hj : j < results.length), j < i →
        avgConfidence results[j] < avgConfidence results[i]) := by
  constructor
  · intro c h
    simp [avgConfidence, h]
  · obtain ⟨r, t, rfl⟩ := List.exists_cons_of_ne_nil hne
    have hex : ∃ x ∈ r :: t, (-1 : ℚ) < avgConfidence x :=
      ⟨r, List.mem_cons_self r t,
        lt_of_lt_of_le (by norm_num)
          (avgConfidence_nonneg r (hnn r (List.mem_cons_self r t)))⟩
    obtain ⟨i, hi, -, h2, h3, h4⟩ := selectFold_argmax (r :: t) none (-1) hex
    refine ⟨i, hi, ?_, h3, h4⟩
    unfold aggregate selectBest
    rw [h2]

/-- Witness for C2: two concrete candidates with landmark-confidence means
`0.5` and `0.5` (an exact tie, resolved to the earliest). -/
theorem aggregate_picks_strictly_highest_mean_witness :
    (∀ c : LocationCandidate, c.landmarks = [] → avgConfidence c = 0) ∧
    ∃ (i : ℕ) (hi : i < ([candA, candB]).length),
      aggregate [candA, candB] =
        .ok { candidate := ([candA, candB])[i],
              avg_confidence := avgConfidence ([candA, candB])[i] } ∧
      (∀ (j : ℕ) (hj : j < ([candA, candB]).length),
        avgConfidence ([candA, candB])[j] ≤ avgConfidence ([candA, candB])[i]) ∧
      (∀ (j : ℕ) (hj : j < ([candA, candB]).length), j < i →
        avgConfidence ([candA, candB])[j] < avgConfidence ([candA, candB])[i]) :=
  aggregate_picks_strictly_highest_mean [candA, candB] (by simp)
    (by
      intro c hc lm hlm
      simp only [List.mem_cons, List.not_mem_nil, or_false] at hc
      rcases hc with rfl | rfl
      · simp only [candA, List.mem_cons, List.not_mem_nil, or_false] at hlm
        rcases hlm with rfl | rfl <;> norm_num
      · simp only [candB, List.mem_cons, List.not_mem_nil, or_false] at hlm
        rcases hlm with rfl
        norm_num)

/-- C5: under the data model's non-negative landmark confidences, aggregation
fails (with the `ValueError` of the `best is None` branch) exactly when the
candidate list is empty; every non-empty list produces a winner. -/
theorem aggregate_error_iff_empty (results : List LocationCandidate)
    (hnn : ∀ c ∈ results, ∀ lm ∈ c.landmarks, 0 ≤ lm.confidence.getD 0) :
    (∃ e, aggregate results = .error e) ↔ results = [] := by
  constructor
  · rintro ⟨e, he⟩
    by_contra hne
    obtain ⟨r, t, rfl⟩ := List.exists_cons_of_ne_nil hne
    have hex : ∃ x ∈ r :: t, (-1 : ℚ) < avgConfidence x :=
      ⟨r, List.mem_cons_self r t,
        lt_of_lt_of_le (by norm_num)
          (avgConfidence_nonneg r (hnn r (List.mem_cons_self r t)))⟩
    obtain ⟨i, hi, -, h2, -, -⟩ := selectFold_argmax (r :: t) none (-1) hex
    unfold aggregate selectBest at he
    rw [h2] at he
    cases he
  · rintro rfl
    exact ⟨"ParallelVisionEngine: No valid results returned", rfl⟩

/-- Witness for C5 at the empty candidate list (`aggregate([])` fails). -/
theorem aggregate_error_iff_empty_witness :
    (∃ e, aggregate [] = .error e) ↔ ([] : List LocationCandidate) = [] :=
  aggregate_error_iff_empty [] (by simp)

/-- C6: `ParallelVisionEngine.analyze` is a full join barrier over dispatch
order: if any single worker call fails, `analyze` fails with a failing
worker's error and no partial result from the other workers is surfaced;
if all workers succeed, all their results (in dispatch order) take part in
aggregation. -/
theorem analyze_full_join_barrier :
    (∀ (self : ParallelVisionEngine) (frames : List String),
      (∃ a ∈ self.agents, ∃ e, a frames = .error e) →
      ∃ e, (∃ a ∈ self.agents, a frames = .error e) ∧
        self.analyze frames = .error e) ∧
    (∀ (self : ParallelVisionEngine) (frames : List String)
        (rs : List LocationCandidate),
      self.agents.map (fun a => a frames) = rs.map Except.ok →
      rs.length = self.agents.length ∧ self.analyze frames = aggregate rs) := by
  constructor
  · rintro self frames ⟨a, ha, e, hae⟩
    have hmem : ∃ t ∈ self.agents.map (fun a => a frames), ∃ e, t = .error e :=
      ⟨a frames, List.mem_map_of_mem _ ha, e, hae⟩
    obtain ⟨e', hmem', hg⟩ := gatherStrict_error_of_mem_error _ hmem
    obtain ⟨a', ha', hae'⟩ := List.mem_map.mp hmem'
    refine ⟨e', ⟨a', ha', hae'⟩, ?_⟩
    unfold ParallelVisionEngine.analyze
    rw [hg]
  · intro self frames rs hmap
    constructor
    · have hlen := congrArg List.length hmap
      simpa using hlen.symm
    · unfold ParallelVisionEngine.analyze
      rw [hmap, gatherStrict_ok_of_all_ok]

/-- Witness for C6: a one-agent engine whose worker fails. -/
theorem analyze_full_join_barrier_witness :
    ∃ e, (∃ a ∈ failEngine.agents, a [] = .error e) ∧
      failEngine.analyze [] = .error e :=
  analyze_full_join_barrier.1 failEngine []
    ⟨fun _ => Except.error "provider error", by simp [failEngine], "provider error", rfl⟩

/-- C4, stated behaviour refuted: a failure inside `analyze_reel`'s pipeline
is caught, but the error dict returned by `analyze_reel` itself carries no
`stage` key — it is `{"error": ..., "video_path": ...}` — so not every
exposed tool returns a `{stage, error}` payload identifying the failing
stage. -/
theorem analyze_reel_error_has_no_stage_key :
    analyze_reel failingExtractDeps "reel.mp4"
      = .inr { error := "unreadable video", stage := none,
               video_path := some "reel.mp4", city := none } := by
  rfl

/-- C4, amended: no exposed tool re-raises a pipeline failure; each converts
it into an error-dict result instead of a location/itinerary, with no
best-effort substitute. `plan_itinerary_from_reel` tags its payload
`{stage, error}` naming the failing stage (`analyze_reel`,
`fetch_city_places` or `plan_itinerary_from_reel`); `analyze_reel` itself
tags `{error, video_path}` and `fetch_city_places` tags `{error, city}`,
both without a `stage` key. -/
theorem boundary_converts_failures_to_error_payloads :
    (∀ (d : AnalyzeDeps) (vp e : String),
      analyzeBody d = .error e →
      analyze_reel d vp
        = .inr { error := e, stage := none, video_path := some vp, city := none }) ∧
    (∀ (search : String → Except String (List String)) (city e : String),
      search city = .error e →
      fetch_city_places search city
        = .inr { error := e, stage := none, video_path := none, city := some city }) ∧
    (∀ (d : PlanDeps) (e : String),
      analyzeBody d.analyze = .error e →
      plan_itinerary_from_reel d
        = .inr { error := e, stage := some "analyze_reel",
                 video_path := none, city := none }) ∧
    (∀ (d : PlanDeps) (ar : AnalyzeResult) (e : String),
      analyze_reel d.analyze d.video_path = .inl ar →
      d.search (planFetchArg ar.info) = .error e →
      plan_itinerary_from_reel d
        = .inr { error := e, stage := some "fetch_city_places",
                 video_path := none, city := none }) ∧
    (∀ (d : PlanDeps) (ar : AnalyzeResult) (pr : PlacesResult) (e : String),
      analyze_reel d.analyze d.video_path = .inl ar →
      fetch_city_places d.search (planFetchArg ar.info) = .inl pr →
      d.build_itinerary ar.info pr.results = .error e →
      plan_itinerary_from_reel d
        = .inr { error := e, stage := some "plan_itinerary_from_reel",
                 video_path := none, city := none }) := by
  refine ⟨?_, ?_, ?_, ?_, ?_⟩
  · intro d vp e he
    unfold analyze_reel
    rw [he]
  · intro search city e he
    unfold fetch_city_places
    rw [he]
  · intro d e he
    unfold plan_itinerary_from_reel analyze_reel
    rw [he]
  · intro d ar e har he
    unfold plan_itinerary_from_reel
    rw [har]
    dsimp only
    unfold fetch_city_places
    rw [he]
  · intro d ar pr e har hpr hb
    unfold plan_itinerary_from_reel
    rw [har]
    dsimp only
    rw [hpr]
    dsimp only
    rw [hb]

/-- Witness for C4's amended statement: with frame extraction failing, the
planner returns the stage-tagged payload `{"stage": "analyze_reel",
"error": "unreadable video"}`. -/
theorem boundary_converts_failures_to_error_payloads_witness :
    plan_itinerary_from_reel failingPlanDeps
      = .inr { error := "unreadable video", stage := some "analyze_reel",
               video_path := none, city := none } :=
  boundary_converts_failures_to_error_payloads.2.2.1 failingPlanDeps
    "unreadable video" rfl

/-- Cell lookup skips a cell with a different reference. -/
theorem lookupCells_cons_ne (p : ℕ) (m : MetricMap) (cs : List (ℕ × MetricMap))
    (r : ℕ) (hne : p ≠ r) : lookupCells ((p, m) :: cs) r = lookupCells cs r := by
  simp [lookupCells, hne]

/-- Cell lookup hits the most recent cell for its reference. -/
theorem lookupCells_cons_eq (p : ℕ) (m : MetricMap) (cs : List (ℕ × MetricMap)) :
    lookupCells ((p, m) :: cs) p = m := by
  simp [lookupCells]

/-- Writing one reference does not change what another reference reads. -/
theorem Heap.lookup_write_ne (h : Heap) (r' r : ℕ) (m : MetricMap) (hne : r' ≠ r) :
    (h.write r' m).lookup r = h.lookup r := by
  simp [Heap.write, Heap.lookup, lookupCells, hne]

/-- Store writes only touch the live references 0, 1, 2. -/
theorem applyOp_lookup_high (h : Heap) (op : WriteOp) (r : ℕ) (hr : 3 ≤ r) :
    (applyOp h op).lookup r = h.lookup r := by
  cases op with
  | incOp k a =>
    exact Heap.lookup_write_ne _ _ _ _ (by simp only [countersRef]; omega)
  | recordOp k v =>
    exact Heap.lookup_write_ne _ _ _ _ (by simp only [latenciesRef]; omega)
  | timerOp k d =>
    exact Heap.lookup_write_ne _ _ _ _ (by simp only [timingsRef]; omega)

/-- Sequences of store writes only touch the live references 0, 1, 2. -/
theorem applyOps_lookup_high (ops : List WriteOp) :
    ∀ (h : Heap) (r : ℕ), 3 ≤ r → (applyOps h ops).lookup r = h.lookup r := by
  induction ops with
  | nil => intro h r _; rfl
  | cons op ops ih =>
    intro h r hr
    calc (applyOps h (op :: ops)).lookup r
        = (applyOps (applyOp h op) ops).lookup r := rfl
      _ = (applyOp h op).lookup r := ih (applyOp h op) r hr
      _ = h.lookup r := applyOp_lookup_high h op r hr

/-- The snapshot returned by `get_metrics` reads, in the returned heap,
exactly the three live maps of the heap it copied. -/
theorem get_metrics_reads_live (h : Heap) :
    readSnapshot (get_metrics h).1 (get_metrics h).2 = liveView h := by
  simp only [get_metrics, Heap.alloc, readSnapshot, liveView, Heap.lookup]
  refine congrArg₂ Prod.mk ?_ (congrArg₂ Prod.mk ?_ ?_)
  · rw [lookupCells_cons_ne _ _ _ _ (by omega), lookupCells_cons_ne _ _ _ _ (by omega),
      lookupCells_cons_eq]
  · rw [lookupCells_cons_ne _ _ _ _ (by omega), lookupCells_cons_eq]
  · rw [lookupCells_cons_eq]

/-- Allocating the snapshot cells does not change the live store (given the
live references lie below the allocation counter). -/
theorem get_metrics_preserves_live (h : Heap) (hwf : h.wf) :
    liveView (get_metrics h).1 = liveView h := by
  have hn := hwf.1
  simp only [get_metrics, Heap.alloc, liveView, Heap.lookup, countersRef,
    latenciesRef, timingsRef]
  refine congrArg₂ Prod.mk ?_ (congrArg₂ Prod.mk ?_ ?_)
  all_goals
    rw [lookupCells_cons_ne _ _ _ _ (by omega), lookupCells_cons_ne _ _ _ _ (by omega),
      lookupCells_cons_ne _ _ _ _ (by omega)]

/-- C8: `get_metrics` returns an independent copy of all three maps that
never aliases the live store: the returned references are fresh (disjoint
from the live references 0, 1, 2); at snapshot time the copy reads exactly
the three live maps; any later sequence of `inc` / `record_latency` / timer
writes leaves the snapshot's contents unchanged; and mutating the
snapshot's own cells changes neither the live store nor what a later
snapshot reads. -/
theorem get_metrics_returns_independent_copy (h : Heap) (hwf : h.wf)
    (h' : Heap) (s : MetricsSnapshot) (heq : get_metrics h = (h', s)) :
    (3 ≤ s.counters ∧ 3 ≤ s.latencies ∧ 3 ≤ s.timings) ∧
    readSnapshot h' s = liveView h ∧
    liveView h' = liveView h ∧
    (∀ ops : List WriteOp, readSnapshot (applyOps h' ops) s = readSnapshot h' s) ∧
    (∀ (r : ℕ) (m : MetricMap),
      r = s.counters ∨ r = s.latencies ∨ r = s.timings →
      liveView (h'.write r m) = liveView h') ∧
    (∀ (r : ℕ) (m : MetricMap),
      r = s.counters ∨ r = s.latencies ∨ r = s.timings →
      readSnapshot (get_metrics (h'.write r m)).1 (get_metrics (h'.write r m)).2
        = liveView h') := by
  have hn := hwf.1
  have hE : get_metrics h
      = ({ next := h.next + 3,
           cells := (h.next + 2, h.lookup timingsRef) ::
                    (h.next + 1, h.lookup latenciesRef) ::
                    (h.next, h.lookup countersRef) :: h.cells },
         { counters := h.next, latencies := h.next + 1, timings := h.next + 2 }) := rfl
  rw [hE] at heq
  cases heq
  have hsc : (3 ≤ h.next ∧ 3 ≤ h.next + 1 ∧ 3 ≤ h.next + 2) := by omega
  refine ⟨hsc, ?_, ?_, ?_, ?_, ?_⟩
  · have := get_metrics_reads_live h
    rw [hE] at this
    exact this
  · have := get_metrics_preserves_live h hwf
    rw [hE] at this
    exact this
  · intro ops
    simp only [readSnapshot]
    rw [applyOps_lookup_high ops _ _ (by omega), applyOps_lookup_high ops _ _ (by omega),
      applyOps_lookup_high ops _ _ (by omega)]
  · intro r m hr
    have hr3 : 3 ≤ r := by
      rcases hr with rfl | rfl | rfl
      · exact hn
      · exact hn.trans (Nat.le_succ _)
      · exact hn.trans (Nat.le_add_right h.next 2)
    simp only [liveView, countersRef, latenciesRef, timingsRef]
    refine congrArg₂ Prod.mk ?_ (congrArg₂ Prod.mk ?_ ?_) <;>
      exact Heap.lookup_write_ne _ _ _ _ (by omega)
  · intro r m hr
    have hr3 : 3 ≤ r := by
      rcases hr with rfl | rfl | rfl
      · exact hn
      · exact hn.trans (Nat.le_succ _)
      · exact hn.trans (Nat.le_add_right h.next 2)
    rw [get_metrics_reads_live]
    simp only [liveView, countersRef, latenciesRef, timingsRef, Heap.write, Heap.lookup]
    refine congrArg₂ Prod.mk ?_ (congrArg₂ Prod.mk ?_ ?_) <;>
      exact lookupCells_cons_ne _ _ _ _ (by omega)

/-- The initial store heap is well-formed. -/
theorem initHeap_wf : initHeap.wf := by
  refine ⟨by norm_num [initHeap], ?_⟩
  intro c hc
  simp only [initHeap, countersRef, latenciesRef, timingsRef, List.mem_cons,
    List.not_mem_nil, or_false] at hc
  rcases hc with rfl | rfl | rfl <;> norm_num [initHeap]

/-- Witness for C8: after snapshotting the initial store, a later `inc`
write leaves the snapshot's contents unchanged. -/
theorem get_metrics_returns_independent_copy_witness :
    readSnapshot (applyOps snapHeapInit [WriteOp.incOp "x" 3]) snapInit
      = readSnapshot snapHeapInit snapInit :=
  (get_metrics_returns_independent_copy initHeap initHeap_wf snapHeapInit snapInit
    rfl).2.2.2.1 [WriteOp.incOp "x" 3]

/-- The invariant is preserved by an enabled action of the first caller. -/
theorem stepA_preserves (s s' : IncState) (hinv : IncInv s) (hstep : stepA s = some s') :
    IncInv s' := by
  obtain ⟨hA4, hB4, hnone, hsf, hst, hcnt, htA, htB⟩ := hinv
  unfold stepA at hstep
  split_ifs at hstep with h0 hl h1 hl1 h2 hl2 h3 hl3 <;>
    first
      | exact Option.noConfusion hstep
      | (obtain rfl := Option.some.inj hstep
         by_cases hpb : 3 ≤ s.pcB <;> simp_all [IncInv] <;>
           first
             | omega
             | (rcases ‹s.pcB = 0 ∨ s.pcB = 4› with h | h <;> simp_all))

/-- The invariant is preserved by an enabled action of the second caller. -/
theorem stepB_preserves (s s' : IncState) (hinv : IncInv s) (hstep : stepB s = some s') :
    IncInv s' := by
  obtain ⟨hA4, hB4, hnone, hsf, hst, hcnt, htA, htB⟩ := hinv
  unfold stepB at hstep
  split_ifs at hstep with h0 hl h1 hl1 h2 hl2 h3 hl3 <;>
    first
      | exact Option.noConfusion hstep
      | (obtain rfl := Option.some.inj hstep
         by_cases hpa : 3 ≤ s.pcA <;> simp_all [IncInv] <;>
           first
             | omega
             | (rcases ‹s.pcA = 0 ∨ s.pcA = 4› with h | h <;> simp_all))

/-- The invariant is preserved by scheduling either caller. -/
theorem schedStep_preserves (s : IncState) (t : Bool) (hinv : IncInv s) :
    IncInv (schedStep s t) := by
  cases t with
  | false =>
    unfold schedStep
    cases hs : stepA s with
    | none => simpa using hinv
    | some s' => simpa using stepA_preserves s s' hinv hs
  | true =>
    unfold schedStep
    cases hs : stepB s with
    | none => simpa using hinv
    | some s' => simpa using stepB_preserves s s' hinv hs

/-- The invariant is preserved by any schedule. -/
theorem runSched_preserves (sched : List Bool) :
    ∀ s : IncState, IncInv s → IncInv (runSched s sched) := by
  induction sched with
  | nil => intro s h; exact h
  | cons t sched ih =>
    intro s h
    exact ih (schedStep s t) (schedStep_preserves s t h)

/-- C9: under every interleaving of two concurrent `inc("x", 3)` callers in
which both callers complete, the counters entry `"x"` ends at 6 — no update
is lost, because the single `_METRICS_LOCK` serialises each caller's
read-modify-write. -/
theorem inc_concurrent_no_lost_update (sched : List Bool)
    (hA : (runSched incInit sched).pcA = 4) (hB : (runSched incInit sched).pcB = 4) :
    (runSched incInit sched).cnt = some 6 := by
  have hinv := runSched_preserves sched incInit (by simp [IncInv, incInit])
  obtain ⟨-, -, -, -, -, hcnt, -, -⟩ := hinv
  rw [hA, hB] at hcnt
  simpa using hcnt

/-- Witness for C9 at a concrete complete schedule. -/
theorem inc_concurrent_no_lost_update_witness :
    (runSched incInit demoSched).cnt = some 6 :=
  inc_concurrent_no_lost_update demoSched (by decide) (by decide)
